import Mathlib

/-!
Verification development for a small interactive shell written in C
(`shell.c`).  The file under review concatenates an early draft
(tokenize-and-print only) and the full shell; the full shell (second half
of the file) defines `read_line`, `split_line`, `launch` and `main`, and
is what we embed here.

Modelling conventions:
- C strings are `List Char`; a `char **` token array is a
  `List (Option (List Char))` where `none` is the `NULL` sentinel.
- `strtok(line, " \t\r\n")` repeatedly called until `NULL` yields the
  maximal runs of non-delimiter characters; `strtokScan` performs the same
  character scan (`cur` is the run of non-delimiter characters read since
  the last delimiter, i.e. the current `strcspn` run).
- The growable token array of `split_line` is modelled by `TokBuf` with an
  explicit capacity; a store at an index outside the allocated capacity
  would be undefined behaviour in C, so stores are guarded and return
  `none` in that case.  `realloc` preserves the stored contents.
  `malloc`/`realloc` are assumed to succeed (the allocation-failure path
  calls `exit(EXIT_FAILURE)` and is outside these claims).
- `launch` and the main read-eval loop are embedded as pure functions from
  an environment (`Env`: result of `getenv("HOME")`, success of `chdir`,
  `fork`, `execvp`, `_spawnvp`, and the wait-visible event sequence of a
  spawned child) and the current working directory to a record of their
  observable effects (continuation status, stdout/stderr writes, spawned
  processes, resulting working directory).
-/

namespace ShellC

/-- The delimiter set `TOK_DELIM = " \t\r\n"` of `split_line`. -/
def isDelim (c : Char) : Bool := c = ' ' || c = '\t' || c = '\r' || c = '\n'

/-- The character scan performed by the repeated `strtok(line, TOK_DELIM)`
calls in `split_line`: `cur` holds the non-delimiter run currently being
read (empty while skipping delimiters).  Each maximal non-delimiter run is
emitted as one token. -/
def strtokScan : List Char → List Char → List (List Char)
  | [], cur => if cur = [] then [] else [cur]
  | c :: cs, cur =>
    if isDelim c then
      if cur = [] then strtokScan cs [] else cur :: strtokScan cs []
    else strtokScan cs (cur ++ [c])

/-- All tokens `strtok` produces from a line, in order. -/
def strtokAll (cs : List Char) : List (List Char) := strtokScan cs []

/-- Specification-side definition of the token sequence, following the
spec's words: "the ordered sequence of maximal non-delimiter substrings"
— split the line at delimiter characters and keep the non-empty chunks. -/
def wordsSpec (cs : List Char) : List (List Char) :=
  (cs.splitOnP isDelim).filter (fun t => !t.isEmpty)

/-- `TOK_BUFSIZE`, the initial capacity of the token array and the fixed
increment by which `split_line` grows it. -/
def TOK_BUFSIZE : Nat := 64

/-- The growable `char **tokens` array of `split_line`: the entries stored
so far (the write position is `entries.length`) and the currently
allocated capacity in pointer slots. -/
structure TokBuf where
  entries : List (Option (List Char))
  cap : Nat
deriving DecidableEq, Repr

/-- `tokens[position++] = v`: a store into the array.  Storing at an index
outside the allocated capacity would be out of bounds (undefined
behaviour), so it is modelled as `none`. -/
def tokStore (b : TokBuf) (v : Option (List Char)) : Option TokBuf :=
  if b.entries.length < b.cap then some ⟨b.entries ++ [v], b.cap⟩ else none

/-- The growth step of `split_line`: `if (pos >= bufsize) { bufsize +=
TOK_BUFSIZE; tokens = realloc(tokens, bufsize * sizeof(char *)); }`.
`realloc` preserves the stored entries. -/
def tokGrow (b : TokBuf) : TokBuf :=
  if b.cap ≤ b.entries.length then ⟨b.entries, b.cap + TOK_BUFSIZE⟩ else b

/-- The `while (tok != NULL)` loop of `split_line` applied to the token
stream produced by `strtok`, followed by the final `tokens[pos] = NULL`
sentinel store. -/
def splitLoop : List (List Char) → TokBuf → Option TokBuf
  | [], b => tokStore b none
  | t :: ts, b =>
    match tokStore b (some t) with
    | none => none
    | some b1 => splitLoop ts (tokGrow b1)

/-- `split_line`: tokenize the line with `strtok` and store the tokens,
then the `NULL` sentinel, into a growable array that starts at capacity
`TOK_BUFSIZE`.  Returns `none` only if some store were out of bounds. -/
def split_line (cs : List Char) : Option (List (Option (List Char))) :=
  (splitLoop (strtokAll cs) ⟨[], TOK_BUFSIZE⟩).map TokBuf.entries

/-- The argument list `launch` reads from the `NULL`-terminated array:
the entries before the first `NULL`. -/
def argsOf (arr : List (Option (List Char))) : List (List Char) :=
  (arr.takeWhile fun e => e.isSome).filterMap id

/-- Wait-visible state changes of a spawned child process, in the order
the OS reports them. -/
inductive ChildEvent
  | stopped
  | exited
  | signaled
deriving DecidableEq, Repr

/-- `waitpid(pid, &status, WUNTRACED)` called once, as the parent branch
of `launch` does: it returns at the first wait-visible event of the child,
including a mere stop. -/
def waitpidOnceWUNTRACED (evs : List ChildEvent) : Option ChildEvent :=
  evs.head?

/-- Modelled from the spec: the waiting step the spec requires on the
fork/exec family — keep waiting past stop events until the child has
exited or been terminated by a signal.  (The C source performs a single
`waitpid` call; this definition is the spec's comparator for claim C3.) -/
def specWaitLoop (evs : List ChildEvent) : Option ChildEvent :=
  evs.find? (fun ev => !(ev == ChildEvent.stopped))

/-- `_spawnvp(_P_WAIT, ...)`: returns only when the spawned process has
terminated; stop events do not end the wait. -/
def spawnWaitWin (evs : List ChildEvent) : Option ChildEvent :=
  evs.find? (fun ev => !(ev == ChildEvent.stopped))

/-- Fate of the forked child on the Unix branch. -/
inductive ChildEnd
  | imageReplaced   -- execvp succeeded: the child now runs the command image
  | exitedFailure   -- execvp failed: perror("shell") then exit(EXIT_FAILURE)
deriving DecidableEq, Repr

/-- The process environment and OS behaviour a dispatch runs in. -/
structure Env where
  home : Option (List Char)            -- getenv("HOME"): none when HOME is unset
  chdirOk : List Char → Bool           -- whether chdir/_chdir succeeds on a path
  forkOk : Bool                        -- whether fork succeeds
  execOk : List (List Char) → Bool     -- whether execvp finds and runs the argv
  spawnOk : List (List Char) → Bool    -- whether _spawnvp finds and runs the argv
  childEvents : List ChildEvent        -- wait-visible events of a spawned child

/-- A process created by the shell: program image, argument vector, the
working directory it inherits, and the event on which the shell's wait for
it returned (`none` means the shell never resumed). -/
structure SpawnRec where
  image : List Char
  argv : List (List Char)
  cwdAtSpawn : List Char
  resumedOn : Option ChildEvent
deriving DecidableEq, Repr

/-- Observable effects of one `launch` dispatch.  `status` is the C return
value: `true` is `1` (continue the loop), `false` is `0` (terminate). -/
structure LaunchOut where
  status : Bool
  out : List (List Char)               -- stdout writes
  err : List (List Char)               -- stderr diagnostics (perror tags)
  cwd : List Char                      -- working directory after the dispatch
  spawned : List SpawnRec              -- processes created
  childEnd : Option ChildEnd           -- fate of the forked child, if any
deriving DecidableEq, Repr

/-- The two platform families of the `#ifdef _WIN32` split. -/
inductive OSFamily
  | windows  -- _spawnvp family
  | unix     -- fork/execvp family
deriving DecidableEq, Repr

/-- The Windows external-command branch of `launch`: build the array
`["cmd.exe", "/C", args..., NULL]` and run
`_spawnvp(_P_WAIT, "cmd.exe", cmd_args)`; on `-1`, `perror("shell")`.
Control then reaches the common `return 1`. -/
def spawnCommandWin (e : Env) (cwd : List Char)
    (args : List (List Char)) : LaunchOut :=
  if e.spawnOk args then
    { status := true, out := [], err := [], cwd := cwd,
      spawned := [{ image := "cmd.exe".toList,
                    argv := "cmd.exe".toList :: "/C".toList :: args,
                    cwdAtSpawn := cwd,
                    resumedOn := spawnWaitWin e.childEvents }],
      childEnd := none }
  else
    { status := true, out := [], err := ["shell".toList], cwd := cwd,
      spawned := [], childEnd := none }

/-- The Unix external-command branch of `launch`: `fork()`; on failure
`perror("shell")`; in the child `execvp(args[0], args)` and, if that
fails, `perror("shell")` followed by `exit(EXIT_FAILURE)`; in the parent a
single `waitpid(pid, &status, WUNTRACED)`.  Control then reaches the
common `return 1`. -/
def spawnCommandUnix (e : Env) (cwd : List Char) (a0 : List Char)
    (rest : List (List Char)) : LaunchOut :=
  if e.forkOk then
    if e.execOk (a0 :: rest) then
      { status := true, out := [], err := [], cwd := cwd,
        spawned := [{ image := a0, argv := a0 :: rest, cwdAtSpawn := cwd,
                      resumedOn := waitpidOnceWUNTRACED e.childEvents }],
        childEnd := some ChildEnd.imageReplaced }
    else
      { status := true, out := [], err := ["shell".toList], cwd := cwd,
        spawned := [], childEnd := some ChildEnd.exitedFailure }
  else
    { status := true, out := [], err := ["shell".toList], cwd := cwd,
      spawned := [], childEnd := none }

/-- `launch`: dispatch one `NULL`-terminated token array.  An empty array
is a no-op returning 1; built-ins `exit`, `echo`, `cd` are matched by
exact `strcmp` on the first token; anything else goes to the platform's
external-command branch.  On a successful `chdir` the working directory
becomes the path passed to it; on failure (including `dir == NULL` when
`HOME` is unset, which makes `chdir` fail with `EFAULT` on the modelled
OS) `perror("shell")` is printed and the directory is untouched. -/
def launch (p : OSFamily) (e : Env) (cwd : List Char)
    (args : List (List Char)) : LaunchOut :=
  match args with
  | [] =>
    { status := true, out := [], err := [], cwd := cwd, spawned := [],
      childEnd := none }
  | a0 :: rest =>
    if a0 = "exit".toList then
      { status := false, out := [], err := [], cwd := cwd, spawned := [],
        childEnd := none }
    else if a0 = "echo".toList then
      { status := true,
        out := [(List.intersperse [' '] rest).flatten ++ ['\n']],
        err := [], cwd := cwd, spawned := [], childEnd := none }
    else if a0 = "cd".toList then
      match rest.head? <|> e.home with
      | none =>
        { status := true, out := [], err := ["shell".toList], cwd := cwd,
          spawned := [], childEnd := none }
      | some d =>
        if e.chdirOk d then
          { status := true, out := [], err := [], cwd := d, spawned := [],
            childEnd := none }
        else
          { status := true, out := [], err := ["shell".toList], cwd := cwd,
            spawned := [], childEnd := none }
    else
      match p with
      | OSFamily.windows => spawnCommandWin e cwd (a0 :: rest)
      | OSFamily.unix => spawnCommandUnix e cwd a0 rest

/-- One `fgets` interaction of `read_line`: either a line was delivered
(at most 1023 characters, the trailing newline included when present) or
the read failed with an error other than end-of-stream.  The end of the
event list is end-of-stream. -/
inductive InEvt
  | line (cs : List Char)
  | readFail
deriving DecidableEq, Repr

/-- Observable outcome of a whole shell run: the process exit status
(`true` = `EXIT_SUCCESS`), the stdout writes in order (prompts included),
the stderr diagnostics, the processes spawned, and the final working
directory. -/
structure RunOut where
  success : Bool
  out : List (List Char)
  err : List (List Char)
  spawned : List SpawnRec
  cwd : List Char
deriving DecidableEq, Repr

/-- The prompt string printed at the top of every loop iteration. -/
def promptStr : List Char := "shell> ".toList

/-- The `do { ... } while (status)` loop of `main`: print the prompt, read
a line (on EOF `read_line` prints one newline and exits with
`EXIT_SUCCESS`; on another read failure it prints `perror("fgets")` and
exits with `EXIT_FAILURE`), tokenize with `split_line`, dispatch with
`launch`, and repeat while `launch` returned 1; when it returns 0 `main`
returns `EXIT_SUCCESS`.  An out-of-bounds token store (`split_line`
returning `none`) would be undefined behaviour; it is mapped to a failing
run and proved unreachable below. -/
def runShell (p : OSFamily) (e : Env) :
    List Char → List InEvt → RunOut
  | cwd, [] =>
    { success := true, out := [promptStr, ['\n']], err := [], spawned := [],
      cwd := cwd }
  | cwd, InEvt.readFail :: _ =>
    { success := false, out := [promptStr], err := ["fgets".toList],
      spawned := [], cwd := cwd }
  | cwd, InEvt.line cs :: evs =>
    match split_line cs with
    | none =>
      { success := false, out := [promptStr], err := [], spawned := [],
        cwd := cwd }
    | some arr =>
      let r := launch p e cwd (argsOf arr)
      if r.status then
        let k := runShell p e r.cwd evs
        { success := k.success, out := promptStr :: (r.out ++ k.out),
          err := r.err ++ k.err, spawned := r.spawned ++ k.spawned,
          cwd := k.cwd }
      else
        { success := true, out := promptStr :: r.out, err := r.err,
          spawned := r.spawned, cwd := r.cwd }

lemma modifyHead_nil_append (L : List (List Char)) :
    L.modifyHead (fun t => [] ++ t) = L := by
  cases L <;> rfl

lemma modifyHead_id_fun (L : List (List Char)) :
    L.modifyHead (fun t => t) = L := by
  cases L <;> rfl

lemma modifyHead_append_cons (cur : List Char) (c : Char) (L : List (List Char)) :
    (L.modifyHead (List.cons c)).modifyHead (fun t => cur ++ t) =
      L.modifyHead (fun t => (cur ++ [c]) ++ t) := by
  cases L <;> simp [List.modifyHead]

lemma strtokScan_eq_splitOnP (cs : List Char) : ∀ cur : List Char,
    strtokScan cs cur =
      ((cs.splitOnP isDelim).modifyHead (fun t => cur ++ t)).filter
        (fun t => !t.isEmpty) := by
  induction cs with
  | nil =>
    intro cur
    simp only [strtokScan, List.splitOnP_nil, List.modifyHead, List.append_nil]
    by_cases h : cur = []
    · simp [h, List.filter]
    · have hne : cur.isEmpty = false := by
        cases cur with
        | nil => exact absurd rfl h
        | cons a l => rfl
      simp [h, List.filter, hne]
  | cons c cs ih =>
    intro cur
    rw [List.splitOnP_cons]
    by_cases h : isDelim c
    · rw [if_pos h]
      simp only [strtokScan, h, if_true, List.modifyHead, List.append_nil,
        List.filter_cons]
      by_cases hcur : cur = []
      · simp [hcur, ih [], modifyHead_nil_append, modifyHead_id_fun]
      · simp [hcur, ih [], modifyHead_nil_append, modifyHead_id_fun,
          List.isEmpty_iff]
    · rw [if_neg h]
      simp only [strtokScan, h, Bool.false_eq_true, if_false]
      rw [ih (cur ++ [c]), modifyHead_append_cons]

/-- The strtok-based tokenizer computes exactly the spec's word list. -/
lemma strtokAll_eq_wordsSpec (cs : List Char) : strtokAll cs = wordsSpec cs := by
  rw [strtokAll, wordsSpec, strtokScan_eq_splitOnP cs [], modifyHead_nil_append]

lemma strtokScan_tokens (cs : List Char) : ∀ cur : List Char,
    (∀ c ∈ cur, isDelim c = false) →
    ∀ t ∈ strtokScan cs cur, t ≠ [] ∧ ∀ c ∈ t, isDelim c = false := by
  induction cs with
  | nil =>
    intro cur hcur t ht
    by_cases h : cur = [] <;> simp [strtokScan, h] at ht
    exact ht ▸ ⟨h, hcur⟩
  | cons c cs ih =>
    intro cur hcur t ht
    by_cases h : isDelim c
    · simp only [strtokScan, h, if_true] at ht
      by_cases hcur0 : cur = []
      · exact ih [] (by simp) t (by simpa [hcur0] using ht)
      · simp only [hcur0, if_false, List.mem_cons] at ht
        rcases ht with rfl | ht
        · exact ⟨hcur0, hcur⟩
        · exact ih [] (by simp) t ht
    · simp only [strtokScan, h, Bool.false_eq_true, if_false] at ht
      refine ih (cur ++ [c]) ?_ t ht
      intro d hd
      rcases List.mem_append.1 hd with hd | hd
      · exact hcur d hd
      · simp only [List.mem_singleton] at hd
        subst hd
        simpa using h

lemma strtokScan_all_delim (cs : List Char)
    (h : ∀ c ∈ cs, isDelim c = true) : strtokScan cs [] = [] := by
  induction cs with
  | nil => rfl
  | cons c cs ih =>
    have hc : isDelim c = true := h c (List.mem_cons_self c cs)
    simp only [strtokScan, hc, if_true]
    exact ih (fun d hd => h d (List.mem_cons_of_mem c hd))

lemma tokGrow_entries (b : TokBuf) : (tokGrow b).entries = b.entries := by
  unfold tokGrow
  by_cases h : b.cap ≤ b.entries.length
  · rw [if_pos h]
  · rw [if_neg h]

lemma tokGrow_inv (b : TokBuf) (h : b.entries.length ≤ b.cap) :
    (tokGrow b).entries.length < (tokGrow b).cap := by
  unfold tokGrow
  by_cases hc : b.cap ≤ b.entries.length
  · rw [if_pos hc]
    show b.entries.length < b.cap + TOK_BUFSIZE
    have h64 : TOK_BUFSIZE = 64 := rfl
    omega
  · rw [if_neg hc]
    show b.entries.length < b.cap
    omega

lemma splitLoop_preserves (ts : List (List Char)) : ∀ b : TokBuf,
    b.entries.length < b.cap →
    ∃ c : Nat, splitLoop ts b = some ⟨b.entries ++ ts.map some ++ [none], c⟩ := by
  induction ts with
  | nil =>
    intro b hb
    exact ⟨b.cap, by simp [splitLoop, tokStore, hb]⟩
  | cons t ts ih =>
    intro b hb
    have hstore : tokStore b (some t) = some ⟨b.entries ++ [some t], b.cap⟩ := by
      simp [tokStore, hb]
    have hlen : (TokBuf.mk (b.entries ++ [some t]) b.cap).entries.length ≤
        (TokBuf.mk (b.entries ++ [some t]) b.cap).cap := by
      simpa [List.length_append] using hb
    obtain ⟨c, hc⟩ := ih (tokGrow ⟨b.entries ++ [some t], b.cap⟩)
      (tokGrow_inv _ hlen)
    refine ⟨c, ?_⟩
    simp only [splitLoop, hstore]
    rw [hc, tokGrow_entries]
    simp [List.append_assoc]

/-- The array `split_line` returns always holds exactly the `strtok`
tokens in order, followed by the `NULL` sentinel. -/
lemma split_line_eq (cs : List Char) :
    split_line cs = some ((strtokAll cs).map some ++ [none]) := by
  obtain ⟨c, hc⟩ := splitLoop_preserves (strtokAll cs) ⟨[], TOK_BUFSIZE⟩
    (by simp [TOK_BUFSIZE])
  simp [split_line, hc]

lemma argsOf_tokens (ts : List (List Char)) :
    argsOf (ts.map some ++ [none]) = ts := by
  induction ts with
  | nil => rfl
  | cons t ts ih =>
    simp only [argsOf, List.takeWhile, List.map_cons, List.cons_append,
      Option.isSome_some, List.filterMap_cons, id, List.append_eq] at ih ⊢
    rw [ih]

lemma launch_nil (p : OSFamily) (e : Env) (cwd : List Char) :
    launch p e cwd [] =
      { status := true, out := [], err := [], cwd := cwd, spawned := [],
        childEnd := none } := rfl

lemma launch_exit (p : OSFamily) (e : Env) (cwd : List Char)
    (tl : List (List Char)) :
    launch p e cwd ("exit".toList :: tl) =
      { status := false, out := [], err := [], cwd := cwd, spawned := [],
        childEnd := none } := rfl

lemma launch_cd (p : OSFamily) (e : Env) (cwd d : List Char)
    (tl : List (List Char)) :
    launch p e cwd ("cd".toList :: d :: tl) =
      if e.chdirOk d then
        { status := true, out := [], err := [], cwd := d, spawned := [],
          childEnd := none }
      else
        { status := true, out := [], err := ["shell".toList], cwd := cwd,
          spawned := [], childEnd := none } := rfl

lemma launch_cd_noarg (p : OSFamily) (e : Env) (cwd : List Char) :
    launch p e cwd ["cd".toList] =
      match e.home with
      | none =>
        { status := true, out := [], err := ["shell".toList], cwd := cwd,
          spawned := [], childEnd := none }
      | some d =>
        if e.chdirOk d then
          { status := true, out := [], err := [], cwd := d, spawned := [],
            childEnd := none }
        else
          { status := true, out := [], err := ["shell".toList], cwd := cwd,
            spawned := [], childEnd := none } := rfl

lemma launch_external (p : OSFamily) (e : Env) (cwd a0 : List Char)
    (rest : List (List Char)) (h1 : a0 ≠ "exit".toList)
    (h2 : a0 ≠ "echo".toList) (h3 : a0 ≠ "cd".toList) :
    launch p e cwd (a0 :: rest) =
      match p with
      | OSFamily.windows => spawnCommandWin e cwd (a0 :: rest)
      | OSFamily.unix => spawnCommandUnix e cwd a0 rest := by
  simp only [launch, if_neg h1, if_neg h2, if_neg h3]

lemma runShell_line (p : OSFamily) (e : Env) (cwd cs : List Char)
    (evs : List InEvt) :
    runShell p e cwd (InEvt.line cs :: evs) =
      (let r := launch p e cwd (strtokAll cs)
       if r.status then
         let k := runShell p e r.cwd evs
         { success := k.success, out := promptStr :: (r.out ++ k.out),
           err := r.err ++ k.err, spawned := r.spawned ++ k.spawned,
           cwd := k.cwd }
       else
         { success := true, out := promptStr :: r.out, err := r.err,
           spawned := r.spawned, cwd := r.cwd }) := by
  simp only [runShell, split_line_eq cs, argsOf_tokens]

/-- C1: for every input line the tokenizer produces exactly the ordered
sequence of maximal non-delimiter substrings of the line (delimiters:
space, tab, carriage return, newline), in order, each non-empty and free
of delimiter characters; a line consisting only of delimiters yields an
empty token list whose array is just the `NULL` end-marker, and the
dispatcher treats the empty list as a no-op signalling continue. -/
theorem tokenizer_words_correct (cs : List Char) :
    strtokAll cs = wordsSpec cs ∧
    (∀ t ∈ strtokAll cs, t ≠ [] ∧ ∀ c ∈ t, isDelim c = false) ∧
    ((∀ c ∈ cs, isDelim c = true) →
      strtokAll cs = [] ∧ split_line cs = some [none]) ∧
    (∀ (p : OSFamily) (e : Env) (cwd : List Char),
      launch p e cwd [] =
        { status := true, out := [], err := [], cwd := cwd, spawned := [],
          childEnd := none }) := by
  refine ⟨strtokAll_eq_wordsSpec cs,
    strtokScan_tokens cs [] (by simp), ?_, fun p e cwd => launch_nil p e cwd⟩
  intro h
  have h0 : strtokAll cs = [] := strtokScan_all_delim cs h
  refine ⟨h0, ?_⟩
  rw [split_line_eq cs, h0]
  rfl

/-- Witness for C1 at the all-delimiter line `" \t\r\n"`. -/
theorem tokenizer_words_correct_witness :
    (∀ c ∈ [' ', '\t', '\r', '\n'], isDelim c = true) ∧
    (strtokAll [' ', '\t', '\r', '\n'] = [] ∧
      split_line [' ', '\t', '\r', '\n'] = some [none]) :=
  ⟨by decide,
    (tokenizer_words_correct [' ', '\t', '\r', '\n']).2.2.1 (by decide)⟩

/-- C8: end-of-stream with no data read prints exactly one trailing
newline to standard output and the process terminates immediately with a
success status, with no further prompt; any other read failure is
reported on stderr and terminates the process with a failure status. -/
theorem eof_and_read_failure (p : OSFamily) (e : Env) (cwd : List Char)
    (rest : List InEvt) :
    runShell p e cwd [] =
      { success := true, out := [promptStr, ['\n']], err := [],
        spawned := [], cwd := cwd } ∧
    runShell p e cwd (InEvt.readFail :: rest) =
      { success := false, out := [promptStr], err := ["fgets".toList],
        spawned := [], cwd := cwd } :=
  ⟨rfl, rfl⟩

/-- C10: every store into the token array in `split_line`, the final
`NULL` sentinel store included, is within the allocated capacity: the
out-of-bounds case (modelled as `none`) is unreachable for every input
line. -/
theorem token_stores_in_bounds (cs : List Char) :
    (∃ b : TokBuf, splitLoop (strtokAll cs) ⟨[], TOK_BUFSIZE⟩ = some b) ∧
    ∃ arr, split_line cs = some arr := by
  obtain ⟨c, hc⟩ := splitLoop_preserves (strtokAll cs) ⟨[], TOK_BUFSIZE⟩
    (by simp [TOK_BUFSIZE])
  exact ⟨⟨_, hc⟩, ⟨_, split_line_eq cs⟩⟩

/-- C9: for a line with more tokens than the initial 64-entry capacity,
the growth-by-fixed-increment policy loses, truncates and corrupts
nothing: the resulting array holds exactly all tokens in their original
order, followed by the `NULL` end-marker. -/
theorem token_growth_preserves (cs : List Char)
    (_h : TOK_BUFSIZE < (strtokAll cs).length) :
    split_line cs = some ((strtokAll cs).map some ++ [none]) :=
  split_line_eq cs

/-- Witness for C9 at a line of 70 space-separated one-character
tokens. -/
theorem token_growth_preserves_witness :
    TOK_BUFSIZE < (strtokAll (List.replicate 70 ['a', ' ']).flatten).length ∧
    split_line (List.replicate 70 ['a', ' ']).flatten =
      some ((strtokAll (List.replicate 70 ['a', ' ']).flatten).map some ++
        [none]) :=
  ⟨by decide, token_growth_preserves _ (by decide)⟩

/-- C4: whenever the first token of a dispatched token list is exactly
"exit" — whatever the trailing tokens — `launch` returns 0 without
creating any process, the read-eval loop ends, and the process exits with
a success status; the remaining input is never read. -/
theorem exit_terminates_loop (p : OSFamily) (e : Env) (cwd cs : List Char)
    (rest : List InEvt)
    (h : (strtokAll cs).head? = some "exit".toList) :
    (∀ tl : List (List Char),
      launch p e cwd ("exit".toList :: tl) =
        { status := false, out := [], err := [], cwd := cwd, spawned := [],
          childEnd := none }) ∧
    runShell p e cwd (InEvt.line cs :: rest) =
      { success := true, out := [promptStr], err := [], spawned := [],
        cwd := cwd } := by
  refine ⟨fun tl => launch_exit p e cwd tl, ?_⟩
  rw [runShell_line]
  cases h' : strtokAll cs with
  | nil =>
    rw [h'] at h
    exact absurd h (by simp)
  | cons t ts =>
    rw [h'] at h
    simp only [List.head?_cons, Option.some.injEq] at h
    subst h
    rw [launch_exit]
    simp

/-- Witness for C4 on the line "exit now" followed by more input. -/
theorem exit_terminates_loop_witness :
    (strtokAll "exit now".toList).head? = some "exit".toList ∧
    runShell OSFamily.unix
      { home := none, chdirOk := fun _ => false, forkOk := true,
        execOk := fun _ => true, spawnOk := fun _ => true,
        childEvents := [] } "/home/u".toList
      [InEvt.line "exit now".toList, InEvt.line "ls".toList] =
      { success := true, out := [promptStr], err := [], spawned := [],
        cwd := "/home/u".toList } :=
  ⟨by decide, (exit_terminates_loop _ _ _ _ _ (by decide)).2⟩

/-- C5 counterexample: the claim asserts that `cd` with no second token
changes the working directory to a configured default "for every process
environment".  In an environment with `HOME` unset, `args[1] ?:
getenv("HOME")` is `NULL`, `chdir` fails, and the dispatch changes to no
directory at all: the working directory is untouched and an error is
reported instead. -/
theorem cd_no_arg_no_default :
    launch OSFamily.unix
      { home := none, chdirOk := fun _ => true, forkOk := true,
        execOk := fun _ => true, spawnOk := fun _ => true,
        childEvents := [] } "/start".toList ["cd".toList] =
      { status := true, out := [], err := ["shell".toList],
        cwd := "/start".toList, spawned := [], childEnd := none } := rfl

/-- C5 amended: when the environment defines `HOME` and changing to it
succeeds, `cd` with no second token changes the working directory to
`HOME` and signals continue; when `HOME` is unset the directory is left
unchanged and the OS error is reported; in every environment the dispatch
signals continue. -/
theorem cd_default_home (p : OSFamily) (e : Env) (cwd : List Char) :
    (∀ h, e.home = some h → e.chdirOk h = true →
      launch p e cwd ["cd".toList] =
        { status := true, out := [], err := [], cwd := h, spawned := [],
          childEnd := none }) ∧
    (e.home = none →
      launch p e cwd ["cd".toList] =
        { status := true, out := [], err := ["shell".toList], cwd := cwd,
          spawned := [], childEnd := none }) ∧
    (launch p e cwd ["cd".toList]).status = true := by
  refine ⟨?_, ?_, ?_⟩
  · intro h hh hok
    rw [launch_cd_noarg, hh]
    simp [hok]
  · intro hh
    rw [launch_cd_noarg, hh]
  · rw [launch_cd_noarg]
    cases hh : e.home with
    | none => rfl
    | some d => by_cases hok : e.chdirOk d <;> simp [hok]

/-- Witness for the amended C5 in an environment where `HOME` is set and
reachable. -/
theorem cd_default_home_witness :
    (({ home := some "/home/u".toList, chdirOk := fun _ => true,
        forkOk := true, execOk := fun _ => true, spawnOk := fun _ => true,
        childEvents := [] } : Env).home = some "/home/u".toList) ∧
    launch OSFamily.unix
      { home := some "/home/u".toList, chdirOk := fun _ => true,
        forkOk := true, execOk := fun _ => true, spawnOk := fun _ => true,
        childEvents := [] } "/start".toList ["cd".toList] =
      { status := true, out := [], err := [], cwd := "/home/u".toList,
        spawned := [], childEnd := none } :=
  ⟨rfl, (cd_default_home _ _ _).1 _ rfl rfl⟩

/-- C6: dispatching `cd` on a target directory the OS refuses reports the
error, leaves the working directory unchanged (no state change on error),
does not terminate, and signals continue; a subsequent external command
is spawned in the prior directory. -/
theorem cd_failure_keeps_cwd (p : OSFamily) (e : Env) (cwd d : List Char)
    (tl : List (List Char)) (hfail : e.chdirOk d = false) :
    launch p e cwd ("cd".toList :: d :: tl) =
      { status := true, out := [], err := ["shell".toList], cwd := cwd,
        spawned := [], childEnd := none } ∧
    ∀ a0 rest', e.forkOk = true → e.execOk (a0 :: rest') = true →
      a0 ≠ "exit".toList → a0 ≠ "echo".toList → a0 ≠ "cd".toList →
      (launch OSFamily.unix e
        (launch p e cwd ("cd".toList :: d :: tl)).cwd
        (a0 :: rest')).spawned.map SpawnRec.cwdAtSpawn = [cwd] := by
  have h1 : launch p e cwd ("cd".toList :: d :: tl) =
      { status := true, out := [], err := ["shell".toList], cwd := cwd,
        spawned := [], childEnd := none } := by
    rw [launch_cd]
    simp [hfail]
  refine ⟨h1, ?_⟩
  intro a0 rest' hf hx h1' h2' h3'
  rw [h1, launch_external _ _ _ _ _ h1' h2' h3']
  simp [spawnCommandUnix, hf, hx]

/-- Witness for C6: `cd /nope` fails, the directory stays `/start`, and a
following `ls` is spawned in `/start`. -/
theorem cd_failure_keeps_cwd_witness :
    (({ home := none, chdirOk := fun _ => false, forkOk := true,
        execOk := fun _ => true, spawnOk := fun _ => true,
        childEvents := [ChildEvent.exited] } : Env).chdirOk "/nope".toList
      = false) ∧
    launch OSFamily.unix
      { home := none, chdirOk := fun _ => false, forkOk := true,
        execOk := fun _ => true, spawnOk := fun _ => true,
        childEvents := [ChildEvent.exited] } "/start".toList
      ["cd".toList, "/nope".toList] =
      { status := true, out := [], err := ["shell".toList],
        cwd := "/start".toList, spawned := [], childEnd := none } :=
  ⟨rfl, (cd_failure_keeps_cwd _ _ _ _ [] rfl).1⟩

/-- C2 counterexample: for the external command `ls -la`, in an
environment where every OS call succeeds, the two platform branches do
not both run the command with the token list as its argument vector: the
Unix branch creates a child whose image is `ls` and whose argument vector
is exactly the token list, but the Windows branch creates a `cmd.exe`
child whose argument vector is `["cmd.exe", "/C", "ls", "-la"]`. -/
theorem platform_argv_differ :
    (launch OSFamily.unix
      { home := none, chdirOk := fun _ => true, forkOk := true,
        execOk := fun _ => true, spawnOk := fun _ => true,
        childEvents := [ChildEvent.exited] } "/w".toList
      ["ls".toList, "-la".toList]).spawned.map SpawnRec.argv =
      [["ls".toList, "-la".toList]] ∧
    (launch OSFamily.windows
      { home := none, chdirOk := fun _ => true, forkOk := true,
        execOk := fun _ => true, spawnOk := fun _ => true,
        childEvents := [ChildEvent.exited] } "/w".toList
      ["ls".toList, "-la".toList]).spawned.map SpawnRec.argv ≠
      [["ls".toList, "-la".toList]] ∧
    (launch OSFamily.windows
      { home := none, chdirOk := fun _ => true, forkOk := true,
        execOk := fun _ => true, spawnOk := fun _ => true,
        childEvents := [ChildEvent.exited] } "/w".toList
      ["ls".toList, "-la".toList]).spawned.map SpawnRec.argv =
      [["cmd.exe".toList, "/C".toList, "ls".toList, "-la".toList]] := by
  refine ⟨rfl, by decide, rfl⟩

/-- C2 amended: for every external command, in an environment where
process creation and image load succeed, each branch creates exactly one
child that inherits the shell's working directory (and, performing no
redirection, its standard streams) and the dispatcher signals continue;
the Unix branch runs the command image `args[0]` with exactly the token
list as its argument vector while the Windows branch runs `cmd.exe` with
`["cmd.exe", "/C"]` prepended to the token list; and whenever the
child's first wait-visible event is already its termination, both
branches resume exactly on that termination event. -/
theorem platform_spawn_contract (e : Env) (cwd a0 : List Char)
    (rest : List (List Char)) (h1 : a0 ≠ "exit".toList)
    (h2 : a0 ≠ "echo".toList) (h3 : a0 ≠ "cd".toList)
    (hf : e.forkOk = true) (hx : e.execOk (a0 :: rest) = true)
    (hs : e.spawnOk (a0 :: rest) = true) :
    launch OSFamily.unix e cwd (a0 :: rest) =
      { status := true, out := [], err := [], cwd := cwd,
        spawned := [{ image := a0, argv := a0 :: rest, cwdAtSpawn := cwd,
                      resumedOn := waitpidOnceWUNTRACED e.childEvents }],
        childEnd := some ChildEnd.imageReplaced } ∧
    launch OSFamily.windows e cwd (a0 :: rest) =
      { status := true, out := [], err := [], cwd := cwd,
        spawned := [{ image := "cmd.exe".toList,
                      argv := "cmd.exe".toList :: "/C".toList :: a0 :: rest,
                      cwdAtSpawn := cwd,
                      resumedOn := spawnWaitWin e.childEvents }],
        childEnd := none } ∧
    ∀ ev, ev ≠ ChildEvent.stopped → e.childEvents.head? = some ev →
      waitpidOnceWUNTRACED e.childEvents = some ev ∧
      spawnWaitWin e.childEvents = some ev := by
  refine ⟨?_, ?_, ?_⟩
  · rw [launch_external _ _ _ _ _ h1 h2 h3]
    simp [spawnCommandUnix, hf, hx]
  · rw [launch_external _ _ _ _ _ h1 h2 h3]
    simp [spawnCommandWin, hs]
  · intro ev hev hhead
    cases hevs : e.childEvents with
    | nil =>
      rw [hevs] at hhead
      exact absurd hhead (by simp)
    | cons v tl =>
      rw [hevs] at hhead
      simp only [List.head?_cons, Option.some.injEq] at hhead
      have hb : (!(v == ChildEvent.stopped)) = true := by
        rw [hhead]
        simpa using hev
      refine ⟨?_, ?_⟩
      · simp only [waitpidOnceWUNTRACED, hevs, List.head?_cons, hhead]
      · rw [hhead] at hb
        simp only [spawnWaitWin, hevs, List.find?]
        simp [hb, hhead]

/-- Witness for the amended C2 with the command `ls -la` and a child that
exits at its first wait-visible event. -/
theorem platform_spawn_contract_witness :
    ("ls".toList ≠ "exit".toList) ∧
    launch OSFamily.unix
      { home := none, chdirOk := fun _ => true, forkOk := true,
        execOk := fun _ => true, spawnOk := fun _ => true,
        childEvents := [ChildEvent.exited] } "/w".toList
      ["ls".toList, "-la".toList] =
      { status := true, out := [], err := [], cwd := "/w".toList,
        spawned := [{ image := "ls".toList,
                      argv := ["ls".toList, "-la".toList],
                      cwdAtSpawn := "/w".toList,
                      resumedOn := some ChildEvent.exited }],
        childEnd := some ChildEnd.imageReplaced } :=
  ⟨by decide,
    (platform_spawn_contract _ _ _ _ (by decide) (by decide) (by decide)
      rfl rfl rfl).1⟩

/-- C3: the code violates this claim (code bug).  The parent performs a
single `waitpid(pid, &status, WUNTRACED)` with no retry loop, so when the
child's first wait-visible event is a stop — e.g. `sleep 100` stopped by
SIGTSTP, event sequence `[stopped, exited]` — the call returns on the
stop and the shell resumes the read-eval loop while the child is merely
stopped; the waiting loop the spec requires (`specWaitLoop`) keeps
waiting and returns on the exit. -/
theorem wait_resumes_on_stop :
    waitpidOnceWUNTRACED [ChildEvent.stopped, ChildEvent.exited] =
      some ChildEvent.stopped ∧
    specWaitLoop [ChildEvent.stopped, ChildEvent.exited] =
      some ChildEvent.exited ∧
    (launch OSFamily.unix
      { home := none, chdirOk := fun _ => true, forkOk := true,
        execOk := fun _ => true, spawnOk := fun _ => true,
        childEvents := [ChildEvent.stopped, ChildEvent.exited] }
      "/w".toList ["sleep".toList, "100".toList]).spawned.map
        SpawnRec.resumedOn = [some ChildEvent.stopped] :=
  ⟨rfl, rfl, rfl⟩

/-- C7: a failing external launch is reported and is never fatal to the
shell: on fork failure or direct spawn failure the error is printed and
no process is created; on exec failure the duplicated process reports the
error and terminates with `exit(EXIT_FAILURE)` instead of falling through
into the shell's own loop; in every case the dispatcher signals continue
and the read-eval loop goes on to the remaining input. -/
theorem launch_failure_continues (e : Env) (cwd a0 cs : List Char)
    (rest : List (List Char)) (evs : List InEvt)
    (h1 : a0 ≠ "exit".toList) (h2 : a0 ≠ "echo".toList)
    (h3 : a0 ≠ "cd".toList) :
    (e.forkOk = false →
      launch OSFamily.unix e cwd (a0 :: rest) =
        { status := true, out := [], err := ["shell".toList], cwd := cwd,
          spawned := [], childEnd := none }) ∧
    (e.forkOk = true → e.execOk (a0 :: rest) = false →
      launch OSFamily.unix e cwd (a0 :: rest) =
        { status := true, out := [], err := ["shell".toList], cwd := cwd,
          spawned := [], childEnd := some ChildEnd.exitedFailure }) ∧
    (e.spawnOk (a0 :: rest) = false →
      launch OSFamily.windows e cwd (a0 :: rest) =
        { status := true, out := [], err := ["shell".toList], cwd := cwd,
          spawned := [], childEnd := none }) ∧
    (∀ p, (launch p e cwd (a0 :: rest)).status = true) ∧
    (∀ p, strtokAll cs = a0 :: rest →
      (runShell p e cwd (InEvt.line cs :: evs)).success =
        (runShell p e (launch p e cwd (a0 :: rest)).cwd evs).success) := by
  have hstat : ∀ p, (launch p e cwd (a0 :: rest)).status = true := by
    intro p
    rw [launch_external _ _ _ _ _ h1 h2 h3]
    cases p with
    | windows =>
      by_cases hs : e.spawnOk (a0 :: rest) <;> simp [spawnCommandWin, hs]
    | unix =>
      by_cases hf : e.forkOk
      · by_cases hx : e.execOk (a0 :: rest) <;>
          simp [spawnCommandUnix, hf, hx]
      · simp [spawnCommandUnix, hf]
  refine ⟨?_, ?_, ?_, hstat, ?_⟩
  · intro hf
    rw [launch_external _ _ _ _ _ h1 h2 h3]
    simp [spawnCommandUnix, hf]
  · intro hf hx
    rw [launch_external _ _ _ _ _ h1 h2 h3]
    simp [spawnCommandUnix, hf, hx]
  · intro hs
    rw [launch_external _ _ _ _ _ h1 h2 h3]
    simp [spawnCommandWin, hs]
  · intro p hcs
    rw [runShell_line, hcs]
    simp [hstat p]

/-- Witness for C7: fork fails for `nosuch`, the error is reported, and
the dispatch still signals continue. -/
theorem launch_failure_continues_witness :
    (({ home := none, chdirOk := fun _ => true, forkOk := false,
        execOk := fun _ => false, spawnOk := fun _ => false,
        childEvents := [] } : Env).forkOk = false) ∧
    launch OSFamily.unix
      { home := none, chdirOk := fun _ => true, forkOk := false,
        execOk := fun _ => false, spawnOk := fun _ => false,
        childEvents := [] } "/w".toList ["nosuch".toList] =
      { status := true, out := [], err := ["shell".toList],
        cwd := "/w".toList, spawned := [], childEnd := none } :=
  ⟨rfl, (launch_failure_continues _ _ _ "x".toList [] []
    (by decide) (by decide) (by decide)).1 rfl⟩

end ShellC
